import Mathlib

/-!
Verification development for the BrowserSelector kiosk application
(`src/Kiosk App/main.js`).

The JavaScript module is shallowly embedded: module-level mutable state
becomes explicit state records, thrown exceptions become `Except` /
`Option NavError` results, `Math.random()` draws become rational
parameters in `[0, 1)`, and the asynchronous title-card transition
machinery becomes a small deterministic event machine (one input event
per event-loop task; the title-card `loadURL` promise resolves only at
an explicit `cardLoaded` event).  Node / Electron builtins
(`path.resolve`, `pathToFileURL`, timers, dialogs) are external
collaborators and are modelled by their documented interface behaviour.
-/

namespace BrowserSelector

/-! ## Playlist data model

A project entry from `projects.json`: `{ title, author, url }`.
`title` and `author` are optional; only `url` matters for navigation
(`loadProject` checks `!project.url`, i.e. the empty string is invalid).
-/

/-! ### JavaScript string primitives

Structural models of the JavaScript string methods the source uses
(`trim`, `toLowerCase`, and the anchored prefix test of a regular
expression), defined over the character list of a `String` so that they
evaluate by kernel reduction on concrete inputs. -/

/-- `String.prototype.trim()`: strip leading and trailing whitespace. -/
def jsTrim (s : String) : String :=
  ⟨((s.data.dropWhile Char.isWhitespace).reverse.dropWhile Char.isWhitespace).reverse⟩

/-- `String.prototype.toLowerCase()` (ASCII-adequate model). -/
def jsToLower (s : String) : String :=
  ⟨s.data.map Char.toLower⟩

/-- Does the character list `s` begin with the pattern `pat`? -/
def beginsWithAux : List Char → List Char → Bool
  | [], _ => true
  | _ :: _, [] => false
  | p :: ps, c :: cs => (p = c) && beginsWithAux ps cs

/-- Does the string `s` begin with `pat`? -/
def beginsWith (s pat : String) : Bool :=
  beginsWithAux pat.data s.data

structure Project where
  title : Option String
  author : Option String
  url : String
deriving DecidableEq, Repr

/-- The sequencer's module state slice relevant to navigation:
the loaded playlist (`projects`) and the playback cursor
(`currentProjectIndex`). -/
structure SeqState where
  projects : List Project
  currentProjectIndex : ℕ
deriving DecidableEq, Repr

/-- The two navigation-time error classes of the spec's taxonomy.
In `main.js` both are plain `Error` throws inside `loadProject`:
`'No projects are loaded. Check projects.json.'` and
`'Project at index ... is invalid or missing a url'`. -/
inductive NavError where
  | emptyPlaylist
  | invalidProject (index : ℕ)
deriving DecidableEq, Repr

/-- Embedding of `loadProject(index)` (main.js lines 220–232), restricted
to the cursor state slice.  The source throws before the assignment
`currentProjectIndex = index`, so an error leaves the state unchanged;
here an error simply carries no new state.  Display side effects
(`showProjectAfterTitleCard`, `resetIdleTimer`) are modelled separately. -/
def loadProject (s : SeqState) (index : ℕ) : Except NavError SeqState :=
  if s.projects.length = 0 then
    .error .emptyPlaylist
  else
    match s.projects[index]? with
    | none => .error (.invalidProject index)
    | some project =>
        if project.url = "" then .error (.invalidProject index)
        else .ok { s with currentProjectIndex := index }

/-- Embedding of `showNextProject()` (main.js lines 234–237):
`(currentProjectIndex + 1) % projects.length`. -/
def showNextProject (s : SeqState) : Except NavError SeqState :=
  loadProject s ((s.currentProjectIndex + 1) % s.projects.length)

/-- Embedding of `showPreviousProject()` (main.js lines 239–243):
`(currentProjectIndex - 1 + projects.length) % projects.length`.
With a cursor in `[0, length)` the JavaScript operand
`cursor - 1 + length` is the natural number `cursor + length - 1`. -/
def showPreviousProject (s : SeqState) : Except NavError SeqState :=
  loadProject s ((s.currentProjectIndex + s.projects.length - 1) % s.projects.length)

/-- `Math.floor` applied to a nonnegative JavaScript number, as used in
`Math.floor(Math.random() * n)`. -/
def jsFloorNat (q : ℚ) : ℕ := (⌊q⌋).toNat

/-- Embedding of `selectRandomProjectIndex(excludeIndex)` (main.js lines
172–181).  The two `Math.random()` draws are the parameters
`r1 r2 ∈ [0, 1)`. -/
def selectRandomProjectIndex (n : ℕ) (excludeIndex : ℕ) (r1 r2 : ℚ) : ℕ :=
  if n = 0 then 0
  else if n = 1 then 0
  else
    let idx := jsFloorNat (r1 * n)
    if idx = excludeIndex then
      (idx + 1 + jsFloorNat (r2 * (n - 1))) % n
    else idx

/-- Embedding of `handleIdleTimeout()` (main.js lines 183–187):
on the idle deadline, pick a random index excluding the current cursor
and load it. -/
def handleIdleTimeout (s : SeqState) (r1 r2 : ℚ) : Except NavError SeqState :=
  if s.projects.length = 0 then .ok s
  else loadProject s (selectRandomProjectIndex s.projects.length s.currentProjectIndex r1 r2)

/-- The navigation operations that mutate the playback cursor. -/
inductive NavOp where
  | goTo (index : ℕ)
  | next
  | previous
  | idleShuffle (r1 r2 : ℚ)

/-- The `Except` outcome of one navigation operation. -/
def navResult (s : SeqState) : NavOp → Except NavError SeqState
  | .goTo index => loadProject s index
  | .next => showNextProject s
  | .previous => showPreviousProject s
  | .idleShuffle r1 r2 => handleIdleTimeout s r1 r2

/-- Run one navigation operation against the module state.  A thrown
error leaves the module state unchanged (in the source every throw in
`loadProject` happens before `currentProjectIndex = index`). -/
def applyNav (s : SeqState) (op : NavOp) : SeqState :=
  match navResult s op with
  | .ok s' => s'
  | .error _ => s

/-- A well-formed sequencer state: non-empty playlist, every entry has a
non-empty `url`, and the cursor is in range. -/
def ValidState (s : SeqState) : Prop :=
  0 < s.projects.length ∧ (∀ p ∈ s.projects, p.url ≠ "") ∧
    s.currentProjectIndex < s.projects.length

/-- `showNextProject()` iterated `k` times, stopping at the first
navigation error. -/
def nextN : ℕ → SeqState → Except NavError SeqState
  | 0, s => .ok s
  | k + 1, s =>
      match showNextProject s with
      | .ok s' => nextN k s'
      | .error e => .error e

/-! ## Serial decoding

`handleSerialData(data)` (main.js lines 245–257) iterates over the
characters of the received chunk: `'R'` triggers `showNextProject()`,
`'L'` triggers `showPreviousProject()`, anything else is ignored.  The
loop body does not catch exceptions, so a navigation throw aborts the
rest of the chunk; mutations made by earlier characters persist.  The
result pairs the surviving module state with the escaped error, if any. -/

def handleChars : List Char → SeqState → SeqState × Option NavError
  | [], s => (s, none)
  | c :: rest, s =>
      if c = 'R' then
        match showNextProject s with
        | .ok s' => handleChars rest s'
        | .error e => (s, some e)
      else if c = 'L' then
        match showPreviousProject s with
        | .ok s' => handleChars rest s'
        | .error e => (s, some e)
      else handleChars rest s

/-- Embedding of `handleSerialData(data)` for one `data` event.  The
`if (!data) return` guard coincides with processing no characters. -/
def handleSerialData (s : SeqState) (data : String) : SeqState × Option NavError :=
  handleChars data.toList s

/-- A sequence of `data` events: each chunk is delivered as a separate
event, so an exception escaping one chunk does not stop later chunks;
the module state persists across events. -/
def handleSerialChunks (s : SeqState) (chunks : List String) : SeqState :=
  chunks.foldl (fun st chunk => (handleSerialData st chunk).1) s

/-! ## Idle-shuffle timeout configuration

`config.idleShuffleTimeoutMs` may hold any JSON-ish value; the source
distinguishes `null`/`false`, then coerces with `Number(...)` and
branches on finiteness/sign (main.js lines 133–142).  JavaScript
numbers are modelled as finite rationals plus `NaN` and the two
infinities; no arithmetic beyond comparison is performed on them. -/

inductive JNum where
  | fin (q : ℚ)
  | nan
  | posInf
  | negInf
deriving DecidableEq, Repr

/-- `Number.isFinite`. -/
def JNum.isFiniteNum : JNum → Bool
  | .fin _ => true
  | _ => false

/-- The JavaScript comparison `x > 0` (false for `NaN`). -/
def JNum.gtZero : JNum → Bool
  | .fin q => decide (0 < q)
  | .nan => false
  | .posInf => true
  | .negInf => false

/-- A configured value for `idleShuffleTimeoutMs`. -/
inductive ConfigVal where
  | nullV
  | boolV (b : Bool)
  | numV (n : JNum)
  | undef
deriving DecidableEq, Repr

/-- The JavaScript coercion `Number(x)` on the supported value shapes. -/
def jsNumberOf : ConfigVal → JNum
  | .nullV => .fin 0
  | .boolV b => if b then .fin 1 else .fin 0
  | .numV n => n
  | .undef => .nan

/-- `DEFAULT_CONFIG.idleShuffleTimeoutMs` (main.js line 14). -/
def DEFAULT_idleShuffleTimeoutMs : ℚ := 60000

/-- Embedding of `getIdleShuffleTimeoutMs()` (main.js lines 133–142). -/
def getIdleShuffleTimeoutMs (configured : ConfigVal) : JNum :=
  if configured = .nullV ∨ configured = .boolV false then .fin 0
  else
    let timeout := jsNumberOf configured
    if timeout.isFiniteNum ∧ timeout.gtZero = true then timeout
    else if timeout = .fin 0 then .fin 0
    else .fin DEFAULT_idleShuffleTimeoutMs

/-- Whether `resetIdleTimer()` (main.js lines 144–159) schedules a new
idle deadline: it returns early when the effective timeout is
non-finite or `≤ 0`, otherwise it calls `setTimeout`. -/
def resetIdleTimerSchedules (configured : ConfigVal) : Bool :=
  let timeout := getIdleShuffleTimeoutMs configured
  timeout.isFiniteNum && timeout.gtZero

/-! ## Background image resolution

`resolveBackgroundImageParam(imagePath)` (main.js lines 44–67).  The
Node builtins `path.isAbsolute`, `path.resolve` and `pathToFileURL` are
external collaborators, modelled here by their interface behaviour on
POSIX-style paths (no `..` normalisation; the claims only concern which
branch of the classification is taken and against which base directory
relative paths are resolved). -/

/-- An argument value: either a string or some non-string value
(`typeof imagePath !== 'string'`). -/
inductive ImageParam where
  | str (s : String)
  | nonString
deriving DecidableEq, Repr

/-- The case-insensitive test of the regular expression
`^(https?|data):` on the trimmed input. -/
def matchesSchemePattern (s : String) : Bool :=
  let lower := jsToLower s
  beginsWith lower "http:" || beginsWith lower "https:" || beginsWith lower "data:"

/-- Model of `path.isAbsolute` on POSIX-style paths. -/
def pathIsAbsolute (p : String) : Bool := beginsWith p "/"

/-- Model of `path.resolve(baseDir, p)` for a relative `p`. -/
def pathResolve (baseDir p : String) : String :=
  if pathIsAbsolute p then p else baseDir ++ "/" ++ p

/-- Model of Node's `pathToFileURL(p).toString()`. -/
def pathToFileURL (p : String) : String := "file://" ++ p

/-- Embedding of `resolveBackgroundImageParam(imagePath)`.
`projectsDir` stands for `path.dirname(projectsFilePath)` when a
projects file is loaded, else `__dirname` (the source computes the base
directory with exactly that alternative). -/
def resolveBackgroundImageParam (projectsDir : String) (imagePath : ImageParam) : String :=
  match imagePath with
  | .nonString => ""
  | .str s =>
      if s = "" then ""
      else
        let trimmed := jsTrim s
        if trimmed = "" then ""
        else if matchesSchemePattern trimmed then trimmed
        else pathToFileURL (pathResolve projectsDir trimmed)

/-! ## Startup (`createWindow`, main.js lines 531–533)

`currentProjectIndex = Math.floor(Math.random() * projects.length);
loadProject(currentProjectIndex);` — note the cursor is assigned before
`loadProject` runs, and the display then goes through the ordinary
`loadProject` entry point. -/

/-- The random initial index drawn in `createWindow`. -/
def createWindowInitialIndex (n : ℕ) (r : ℚ) : ℕ := jsFloorNat (r * n)

/-- The startup navigation of `createWindow`: assign the cursor, then
call `loadProject` on it. -/
def createWindowStart (projects : List Project) (r : ℚ) : Except NavError SeqState :=
  let idx := createWindowInitialIndex projects.length r
  loadProject { projects := projects, currentProjectIndex := idx } idx

/-! ## Title-card transition machine (main.js lines 102–123, 189–218)

A deterministic event machine for the asynchronous transition protocol.
Projects are identified by their index.  Model conventions, matching
the event-loop semantics of the source:

* each navigation request (`nav p`) is a separate event-loop task, so
  the synchronous prefix of `showProjectAfterTitleCard` (the
  `clearTimeout`) runs, and then the async IIFE runs up to its first
  genuine suspension point;
* when the card is already visible and no load is in flight,
  `ensureTitleCardVisible` resolves immediately, so the IIFE continues
  to `setTimeout` within the same task's microtask drain;
* when a card load is in flight (`titleCardLoadingPromise` non-null) the
  IIFE suspends on that promise; `cardLoaded` resolves it and runs the
  suspended continuations in FIFO order, each executing
  `titleCardTimeoutId = setTimeout(...)` — an assignment, not a
  clear-then-set;
* `scheduledTimers` is the runtime's table of live `setTimeout` timers
  (all are created with the same `getTitleCardDurationMs()` duration, so
  they fire in creation order); `titleCardTimeoutId` is the module
  variable, which may point at only one of them. -/

namespace Card

structure CardState where
  isTitleCardVisible : Bool
  titleCardLoading : Bool
  /-- project indices of async IIFEs suspended on the card-load promise,
  in suspension (FIFO resumption) order. -/
  loadWaiters : List ℕ
  /-- live runtime timers `(timerId, project)`, in creation order. -/
  scheduledTimers : List (ℕ × ℕ)
  /-- the module variable `titleCardTimeoutId`. -/
  titleCardTimeoutId : Option ℕ
  nextTimerId : ℕ
  /-- trace of content loads performed by fired timers
  (`mainWindow.loadURL(project.url)`), in order. -/
  contentLoads : List ℕ
deriving DecidableEq, Repr

/-- The synchronous prefix of `showProjectAfterTitleCard`:
`if (titleCardTimeoutId) { clearTimeout(titleCardTimeoutId); titleCardTimeoutId = null; }`. -/
def clearTitleCardTimeout (s : CardState) : CardState :=
  match s.titleCardTimeoutId with
  | some tid =>
      { s with
        scheduledTimers := s.scheduledTimers.filter (fun t => t.1 ≠ tid),
        titleCardTimeoutId := none }
  | none => s

/-- `titleCardTimeoutId = setTimeout(() => { ... loadURL(project.url) ... }, duration)`:
registers a fresh runtime timer and overwrites the module variable. -/
def scheduleContentTimer (s : CardState) (p : ℕ) : CardState :=
  { s with
    scheduledTimers := s.scheduledTimers ++ [(s.nextTimerId, p)],
    titleCardTimeoutId := some s.nextTimerId,
    nextTimerId := s.nextTimerId + 1 }

/-- One navigation request through `showProjectAfterTitleCard(project)`:
clear the pending timeout, then run the IIFE up to its first suspension.
`ensureTitleCardVisible` distinguishes three cases: card visible and no
load in flight (return at once, so the timer is scheduled now); a load
in flight (await it, suspending this IIFE); otherwise start the card
load and await it (the starting IIFE is the first waiter). -/
def showProjectAfterTitleCard (s : CardState) (p : ℕ) : CardState :=
  let s := clearTitleCardTimeout s
  if s.isTitleCardVisible ∧ ¬s.titleCardLoading then
    scheduleContentTimer s p
  else if s.titleCardLoading then
    { s with loadWaiters := s.loadWaiters ++ [p] }
  else
    { s with titleCardLoading := true, loadWaiters := s.loadWaiters ++ [p] }

/-- The card-load promise resolves: `isTitleCardVisible = true`,
`titleCardLoadingPromise = null`, then each suspended IIFE resumes in
FIFO order and schedules its content timer. -/
def cardLoadFinished (s : CardState) : CardState :=
  if s.titleCardLoading then
    let s' := { s with
      isTitleCardVisible := true,
      titleCardLoading := false,
      loadWaiters := [] }
    s.loadWaiters.foldl scheduleContentTimer s'
  else s

/-- The earliest live timer fires.  Its callback (main.js lines
208–216) marks the card hidden and loads the project's content URL —
with no check that this timer is still the one `titleCardTimeoutId`
points at. -/
def fireEarliestTimer (s : CardState) : CardState :=
  match s.scheduledTimers with
  | [] => s
  | (_, p) :: rest =>
      { s with
        scheduledTimers := rest,
        isTitleCardVisible := false,
        contentLoads := s.contentLoads ++ [p] }

inductive KioskEvent where
  | nav (p : ℕ)
  | cardLoaded
  | timerFire
deriving DecidableEq, Repr

def step (s : CardState) : KioskEvent → CardState
  | .nav p => showProjectAfterTitleCard s p
  | .cardLoaded => cardLoadFinished s
  | .timerFire => fireEarliestTimer s

def run (s : CardState) (events : List KioskEvent) : CardState :=
  events.foldl step s

/-- Fresh module state: no card shown, no load in flight, no timers. -/
def initialCardState : CardState :=
  { isTitleCardVisible := false
    titleCardLoading := false
    loadWaiters := []
    scheduledTimers := []
    titleCardTimeoutId := none
    nextTimerId := 0
    contentLoads := [] }

end Card

/-! ## Quit guard (`before-quit` handler, main.js lines 673–699)

The handler reads `config.password?.trim()`, and when a password is
configured, the `passwordValidated` flag is unset and the grace period
has elapsed, it suppresses termination (`event.preventDefault()`) and
presents the modal challenge; a matching entry sets the one-shot flag
and calls `app.quit()` again.  The dialog resolution is a parameter:
`some entered` when the user submits, `none` when the dialog is
cancelled/closed (the promise rejects). -/

namespace Quit

/-- `PASSWORD_GRACE_PERIOD_MS` (main.js line 42). -/
def PASSWORD_GRACE_PERIOD_MS : ℕ := 10000

/-- `isWithinPasswordGracePeriod()` (main.js lines 350–354), with
`elapsedMs = Date.now() - appStartTime` (the start time is set in
`whenReady` before any quit attempt can reach the handler). -/
def isWithinPasswordGracePeriod (elapsedMs : ℕ) : Bool :=
  elapsedMs < PASSWORD_GRACE_PERIOD_MS

structure QuitCtx where
  /-- `config.password` (a string after the defaults merge). -/
  password : String
  passwordValidated : Bool
  elapsedMs : ℕ
deriving DecidableEq, Repr

structure QuitResult where
  /-- `event.preventDefault()` was called: this quit attempt is suppressed. -/
  prevented : Bool
  /-- the `passwordValidated` flag after the attempt resolves. -/
  passwordValidated : Bool
  /-- `app.quit()` was called again from the challenge continuation. -/
  quitRequestedAgain : Bool
deriving DecidableEq, Repr

/-- Embedding of the `before-quit` handler.  `dialogOutcome` is the
resolution of `showPasswordDialog()`. -/
def beforeQuit (ctx : QuitCtx) (dialogOutcome : Option String) : QuitResult :=
  let password := jsTrim ctx.password
  if password ≠ "" ∧ ctx.passwordValidated = false ∧
      isWithinPasswordGracePeriod ctx.elapsedMs = false then
    match dialogOutcome with
    | some entered =>
        if entered = password then
          { prevented := true, passwordValidated := true, quitRequestedAgain := true }
        else
          { prevented := true, passwordValidated := ctx.passwordValidated,
            quitRequestedAgain := false }
    | none =>
        { prevented := true, passwordValidated := ctx.passwordValidated,
          quitRequestedAgain := false }
  else
    { prevented := false, passwordValidated := ctx.passwordValidated,
      quitRequestedAgain := false }

end Quit

/-! ## Helper lemmas -/

/-- `Math.floor(r * n)` lands in `[0, n)` whenever `r ∈ [0, 1)` and `n > 0`. -/
lemma jsFloorNat_mul_lt {n : ℕ} (hn : 0 < n) {r : ℚ} (_h0 : 0 ≤ r) (h1 : r < 1) :
    jsFloorNat (r * n) < n := by
  unfold jsFloorNat
  have hmul : r * (n : ℚ) < ((n : ℤ) : ℚ) := by
    push_cast
    calc r * (n : ℚ) < 1 * (n : ℚ) := by
          apply mul_lt_mul_of_pos_right h1
          exact_mod_cast hn
      _ = (n : ℚ) := one_mul _
  have hfl : ⌊r * (n : ℚ)⌋ < (n : ℤ) := Int.floor_lt.mpr hmul
  omega

lemma loadProject_ok_of_valid (s : SeqState) (i : ℕ) (h0 : ¬s.projects.length = 0)
    (hv : ∀ p ∈ s.projects, p.url ≠ "") (hi : i < s.projects.length) :
    loadProject s i = .ok { s with currentProjectIndex := i } := by
  unfold loadProject
  rw [if_neg h0, List.getElem?_eq_getElem hi]
  exact if_neg (hv _ (List.getElem_mem hi))

lemma loadProject_ok_inv (s : SeqState) (i : ℕ) (s' : SeqState)
    (h : loadProject s i = .ok s') :
    s'.projects = s.projects ∧ s'.currentProjectIndex = i ∧ i < s.projects.length := by
  unfold loadProject at h
  by_cases h0 : s.projects.length = 0
  · rw [if_pos h0] at h
    exact absurd h (by simp)
  · rw [if_neg h0] at h
    cases hget : s.projects[i]? with
    | none =>
        rw [hget] at h
        exact absurd h (by simp)
    | some p =>
        rw [hget] at h
        have h' : (if p.url = "" then Except.error (NavError.invalidProject i)
            else Except.ok { s with currentProjectIndex := i }) = Except.ok s' := h
        by_cases hurl : p.url = ""
        · rw [if_pos hurl] at h'
          exact absurd h' (by simp)
        · rw [if_neg hurl] at h'
          have hi : i < s.projects.length := by
            by_contra hcon
            rw [List.getElem?_eq_none (by omega)] at hget
            exact absurd hget (by simp)
          have heq := Except.ok.inj h'
          subst heq
          exact ⟨rfl, rfl, hi⟩

lemma showNextProject_ok (s : SeqState) (h : ValidState s) :
    showNextProject s =
      .ok { s with
        currentProjectIndex := (s.currentProjectIndex + 1) % s.projects.length } :=
  loadProject_ok_of_valid s _ (by have h1 := h.1; omega) h.2.1 (Nat.mod_lt _ h.1)

lemma showPreviousProject_ok (s : SeqState) (h : ValidState s) :
    showPreviousProject s =
      .ok { s with
        currentProjectIndex :=
          (s.currentProjectIndex + s.projects.length - 1) % s.projects.length } :=
  loadProject_ok_of_valid s _ (by have h1 := h.1; omega) h.2.1 (Nat.mod_lt _ h.1)

lemma validState_update (s : SeqState) (h : ValidState s) {i : ℕ}
    (hi : i < s.projects.length) :
    ValidState { s with currentProjectIndex := i } :=
  ⟨h.1, h.2.1, hi⟩

/-- Stepping back by `n - 1 (mod n)` undoes stepping forward by `1 (mod n)`. -/
lemma succ_mod_pred {n c : ℕ} (h0 : 0 < n) (hc : c < n) :
    ((c + 1) % n + n - 1) % n = c := by
  rcases Nat.lt_or_ge (c + 1) n with h | h
  · rw [Nat.mod_eq_of_lt h]
    have he : c + 1 + n - 1 = c + n := by omega
    rw [he, Nat.add_mod_right, Nat.mod_eq_of_lt hc]
  · have he : c + 1 = n := by omega
    rw [he, Nat.mod_self]
    have h1 : 0 + n - 1 = n - 1 := by omega
    rw [h1, Nat.mod_eq_of_lt (show n - 1 < n by omega)]
    omega

/-- Stepping forward by `1 (mod n)` undoes stepping back by `n - 1 (mod n)`. -/
lemma pred_mod_succ {n c : ℕ} (h0 : 0 < n) (hc : c < n) :
    ((c + n - 1) % n + 1) % n = c := by
  rcases Nat.eq_zero_or_pos c with rfl | hpos
  · have h1 : 0 + n - 1 = n - 1 := by omega
    rw [h1, Nat.mod_eq_of_lt (show n - 1 < n by omega)]
    have h2 : n - 1 + 1 = n := by omega
    rw [h2, Nat.mod_self]
  · have h1 : c + n - 1 = c - 1 + n := by omega
    rw [h1, Nat.add_mod_right, Nat.mod_eq_of_lt (by omega : c - 1 < n)]
    have h2 : c - 1 + 1 = c := by omega
    rw [h2, Nat.mod_eq_of_lt hc]

lemma nextN_ok (k : ℕ) (s : SeqState) (h : ValidState s) :
    nextN k s =
      .ok { s with
        currentProjectIndex := (s.currentProjectIndex + k) % s.projects.length } := by
  induction k generalizing s with
  | zero =>
      have he : (s.currentProjectIndex + 0) % s.projects.length = s.currentProjectIndex := by
        rw [Nat.add_zero, Nat.mod_eq_of_lt h.2.2]
      simp only [nextN, he]
  | succ k ih =>
      have h1 := validState_update s h (Nat.mod_lt (s.currentProjectIndex + 1) h.1)
      simp only [nextN, showNextProject_ok s h]
      rw [ih _ h1]
      have he : ((s.currentProjectIndex + 1) % s.projects.length + k) % s.projects.length =
          (s.currentProjectIndex + (k + 1)) % s.projects.length := by
        rw [Nat.mod_add_mod]
        congr 1
        omega
      simp only [he]

lemma navResult_ok_shape (s : SeqState) (op : NavOp) (s' : SeqState)
    (h : navResult s op = .ok s') :
    s' = s ∨ ∃ i, loadProject s i = .ok s' := by
  cases op with
  | goTo i => exact Or.inr ⟨i, h⟩
  | next => exact Or.inr ⟨_, h⟩
  | previous => exact Or.inr ⟨_, h⟩
  | idleShuffle r1 r2 =>
      have h' : (if s.projects.length = 0 then Except.ok s
          else loadProject s
            (selectRandomProjectIndex s.projects.length s.currentProjectIndex r1 r2)) =
          Except.ok s' := h
      by_cases h0 : s.projects.length = 0
      · rw [if_pos h0] at h'
        exact Or.inl (Except.ok.inj h').symm
      · rw [if_neg h0] at h'
        exact Or.inr ⟨_, h'⟩

/-! ## Claim theorems -/

/-- When the first draw hits the excluded index, the re-draw
`(i + 1 + j) % n` with `j < n - 1` always avoids `i` and stays in
range. -/
lemma redraw_avoids (n i j : ℕ) (hn : 1 < n) (hi : i < n) (hj : j < n - 1) :
    (i + 1 + j) % n < n ∧ (i + 1 + j) % n ≠ i := by
  refine ⟨Nat.mod_lt _ (by omega), ?_⟩
  rcases Nat.lt_or_ge (i + 1 + j) n with hlt | hge
  · rw [Nat.mod_eq_of_lt hlt]
    omega
  · rw [Nat.mod_eq_sub_mod hge, Nat.mod_eq_of_lt (by omega)]
    omega

/-- C2: for every playlist length `n > 1` and every exclude index
`k ∈ [0, n)`, `selectRandomProjectIndex` returns an index in `[0, n)`
different from `k` for every outcome of the two random draws; for
`n = 1` it always returns `0`. -/
theorem selectRandomProjectIndex_spec (n k : ℕ) (r1 r2 : ℚ)
    (hr1 : 0 ≤ r1 ∧ r1 < 1) (hr2 : 0 ≤ r2 ∧ r2 < 1) :
    (1 < n → k < n →
      selectRandomProjectIndex n k r1 r2 < n ∧ selectRandomProjectIndex n k r1 r2 ≠ k)
    ∧ (n = 1 → selectRandomProjectIndex n k r1 r2 = 0) := by
  constructor
  · intro hn _hk
    have hunfold : selectRandomProjectIndex n k r1 r2 =
        (if jsFloorNat (r1 * n) = k then
          (jsFloorNat (r1 * n) + 1 + jsFloorNat (r2 * ((n : ℚ) - 1))) % n
        else jsFloorNat (r1 * n)) := by
      unfold selectRandomProjectIndex
      rw [if_neg (by omega), if_neg (by omega)]
    have hidx : jsFloorNat (r1 * n) < n := jsFloorNat_mul_lt (by omega) hr1.1 hr1.2
    have hcast : ((n : ℚ) - 1) = ((n - 1 : ℕ) : ℚ) := by
      rw [Nat.cast_sub (by omega : 1 ≤ n)]
      norm_num
    have hj : jsFloorNat (r2 * ((n : ℚ) - 1)) < n - 1 := by
      rw [hcast]
      exact jsFloorNat_mul_lt (n := n - 1) (by omega) hr2.1 hr2.2
    rw [hunfold]
    by_cases h : jsFloorNat (r1 * n) = k
    · rw [if_pos h, h]
      exact redraw_avoids n k _ hn (h ▸ hidx) hj
    · rw [if_neg h]
      exact ⟨hidx, h⟩
  · intro h
    subst h
    unfold selectRandomProjectIndex
    norm_num

/-- Witness for C2 at `n = 5`, `k = 2`, draws `2/5` and `3/4`. -/
theorem selectRandomProjectIndex_spec_witness :
    selectRandomProjectIndex 5 2 (2/5) (3/4) < 5 ∧
      selectRandomProjectIndex 5 2 (2/5) (3/4) ≠ 2 :=
  (selectRandomProjectIndex_spec 5 2 (2/5) (3/4)
      ⟨by norm_num, by norm_num⟩ ⟨by norm_num, by norm_num⟩).1
    (by norm_num) (by norm_num)

/-- C9: at startup, `createWindow` picks
`Math.floor(Math.random() * length)`, which is a valid index in
`[0, length)` for any playlist of length ≥ 1 and any draw `r ∈ [0, 1)`,
and it displays that project through the ordinary `loadProject` entry
point. -/
theorem createWindowStart_spec (projects : List Project) (r : ℚ)
    (hn : 0 < projects.length) (h0 : 0 ≤ r) (h1 : r < 1) :
    createWindowInitialIndex projects.length r < projects.length ∧
      createWindowStart projects r =
        loadProject
          { projects := projects,
            currentProjectIndex := createWindowInitialIndex projects.length r }
          (createWindowInitialIndex projects.length r) :=
  ⟨jsFloorNat_mul_lt hn h0 h1, rfl⟩

/-- Witness for C9 on a one-project playlist with draw `1/2`. -/
theorem createWindowStart_spec_witness :
    createWindowInitialIndex [Project.mk none none "https://example.org"].length (1/2)
        < [Project.mk none none "https://example.org"].length :=
  (createWindowStart_spec [Project.mk none none "https://example.org"] (1/2)
      (by norm_num) (by norm_num) (by norm_num)).1

/-- C3 counterexample: a non-finite configured value (`NaN`) does not
yield an effective timeout of `0`; it falls back to the default
`60000`, and `resetIdleTimer` does schedule an idle deadline. -/
theorem idleTimeout_nonfinite_counterexample :
    getIdleShuffleTimeoutMs (.numV .nan) = .fin 60000 ∧
      resetIdleTimerSchedules (.numV .nan) = true := by
  constructor <;> rfl

/-- C3 (amended): `resetIdleTimer` schedules a new idle deadline iff the
effective timeout is a positive finite number; configured `0`, `null`
and `false` give effective timeout `0` (no deadline is ever scheduled),
while a non-finite configured number falls back to the default `60000`,
so a deadline IS scheduled. -/
theorem getIdleShuffleTimeoutMs_spec (configured : ConfigVal) :
    (resetIdleTimerSchedules configured = true ↔
      ((getIdleShuffleTimeoutMs configured).isFiniteNum = true ∧
        (getIdleShuffleTimeoutMs configured).gtZero = true))
    ∧ ((configured = .nullV ∨ configured = .boolV false ∨ configured = .numV (.fin 0)) →
        getIdleShuffleTimeoutMs configured = .fin 0 ∧
          resetIdleTimerSchedules configured = false)
    ∧ ((configured = .numV .nan ∨ configured = .numV .posInf ∨
          configured = .numV .negInf ∨ configured = .undef) →
        getIdleShuffleTimeoutMs configured = .fin DEFAULT_idleShuffleTimeoutMs ∧
          resetIdleTimerSchedules configured = true) := by
  refine ⟨?_, ?_, ?_⟩
  · unfold resetIdleTimerSchedules
    rw [Bool.and_eq_true]
  · rintro (rfl | rfl | rfl) <;> exact ⟨rfl, rfl⟩
  · rintro (rfl | rfl | rfl | rfl) <;> exact ⟨rfl, rfl⟩

/-- Witness for C3 (amended) at `configured = Infinity`. -/
theorem getIdleShuffleTimeoutMs_spec_witness :
    getIdleShuffleTimeoutMs (.numV .posInf) = .fin DEFAULT_idleShuffleTimeoutMs ∧
      resetIdleTimerSchedules (.numV .posInf) = true :=
  (getIdleShuffleTimeoutMs_spec (.numV .posInf)).2.2 (Or.inr (Or.inl rfl))

/-- C10: `resolveBackgroundImageParam` totally classifies its input:
non-string / empty / whitespace-only inputs give `""`; a trimmed input
matching the case-insensitive pattern `^(https?|data):` is returned
unchanged; every other input becomes a `file://` URL, with relative
paths resolved against the directory containing the projects file. -/
theorem resolveBackgroundImageParam_spec (dir : String) (input : ImageParam) :
    ((input = .nonString ∨ (∃ s, input = .str s ∧ jsTrim s = "")) →
      resolveBackgroundImageParam dir input = "")
    ∧ (∀ s, input = .str s → jsTrim s ≠ "" → matchesSchemePattern (jsTrim s) = true →
        resolveBackgroundImageParam dir input = jsTrim s)
    ∧ (∀ s, input = .str s → jsTrim s ≠ "" → matchesSchemePattern (jsTrim s) = false →
        resolveBackgroundImageParam dir input =
          pathToFileURL
            (if pathIsAbsolute (jsTrim s) then jsTrim s
             else dir ++ "/" ++ jsTrim s)) := by
  refine ⟨?_, ?_, ?_⟩
  · rintro (rfl | ⟨s, rfl, hs⟩)
    · rfl
    · unfold resolveBackgroundImageParam
      by_cases h0 : s = ""
      · simp [h0]
      · simp [h0, hs]
  · rintro s rfl hne hm
    have h0 : s ≠ "" := fun h => hne (by rw [h]; rfl)
    unfold resolveBackgroundImageParam
    simp [h0, hne, hm]
  · rintro s rfl hne hm
    have h0 : s ≠ "" := fun h => hne (by rw [h]; rfl)
    unfold resolveBackgroundImageParam
    simp [h0, hne, hm, pathResolve]

/-- Witness for C10: a relative path is resolved against the projects
directory and turned into a `file://` URL. -/
theorem resolveBackgroundImageParam_spec_witness :
    resolveBackgroundImageParam "/base" (.str " img.png") =
      pathToFileURL
        (if pathIsAbsolute (jsTrim " img.png") then jsTrim " img.png"
         else "/base" ++ "/" ++ jsTrim " img.png") :=
  (resolveBackgroundImageParam_spec "/base" (.str " img.png")).2.2
    " img.png" rfl (by decide) (by decide)


lemma handleChars_cons_R (rest : List Char) (s : SeqState) (h : ValidState s) :
    handleChars ('R' :: rest) s =
      handleChars rest
        { s with currentProjectIndex := (s.currentProjectIndex + 1) % s.projects.length } := by
  have hstep : handleChars ('R' :: rest) s =
      (match showNextProject s with
        | .ok s' => handleChars rest s'
        | .error e => (s, some e)) := rfl
  rw [hstep, showNextProject_ok s h]

lemma handleChars_cons_L (rest : List Char) (s : SeqState) (h : ValidState s) :
    handleChars ('L' :: rest) s =
      handleChars rest
        { s with currentProjectIndex :=
            (s.currentProjectIndex + s.projects.length - 1) % s.projects.length } := by
  have hstep : handleChars ('L' :: rest) s =
      (match showPreviousProject s with
        | .ok s' => handleChars rest s'
        | .error e => (s, some e)) := rfl
  rw [hstep, showPreviousProject_ok s h]

lemma handleChars_cons_other (rest : List Char) (s : SeqState) (c : Char)
    (hR : ¬c = 'R') (hL : ¬c = 'L') :
    handleChars (c :: rest) s = handleChars rest s := by
  have hstep : handleChars (c :: rest) s =
      (if c = 'R' then
        match showNextProject s with
        | .ok s' => handleChars rest s'
        | .error e => (s, some e)
      else if c = 'L' then
        match showPreviousProject s with
        | .ok s' => handleChars rest s'
        | .error e => (s, some e)
      else handleChars rest s) := rfl
  rw [hstep, if_neg hR, if_neg hL]

lemma handleChars_valid (cs : List Char) (s : SeqState) (h : ValidState s) :
    (handleChars cs s).2 = none ∧ ValidState (handleChars cs s).1 ∧
      (handleChars cs s).1.projects = s.projects := by
  induction cs generalizing s with
  | nil => exact ⟨rfl, h, rfl⟩
  | cons c rest ih =>
      by_cases hR : c = 'R'
      · subst hR
        rw [handleChars_cons_R rest s h]
        have h1 := validState_update s h (Nat.mod_lt (s.currentProjectIndex + 1) h.1)
        exact ⟨(ih _ h1).1, (ih _ h1).2.1, (ih _ h1).2.2⟩
      · by_cases hL : c = 'L'
        · subst hL
          rw [handleChars_cons_L rest s h]
          have h1 := validState_update s h
            (Nat.mod_lt (s.currentProjectIndex + s.projects.length - 1) h.1)
          exact ⟨(ih _ h1).1, (ih _ h1).2.1, (ih _ h1).2.2⟩
        · rw [handleChars_cons_other rest s c hR hL]
          exact ih s h

lemma handleChars_append (a b : List Char) (s : SeqState) (h : ValidState s) :
    handleChars (a ++ b) s = handleChars b (handleChars a s).1 := by
  induction a generalizing s with
  | nil => rfl
  | cons c rest ih =>
      by_cases hR : c = 'R'
      · subst hR
        rw [List.cons_append, handleChars_cons_R (rest ++ b) s h,
          handleChars_cons_R rest s h]
        exact ih _ (validState_update s h (Nat.mod_lt (s.currentProjectIndex + 1) h.1))
      · by_cases hL : c = 'L'
        · subst hL
          rw [List.cons_append, handleChars_cons_L (rest ++ b) s h,
            handleChars_cons_L rest s h]
          exact ih _ (validState_update s h
            (Nat.mod_lt (s.currentProjectIndex + s.projects.length - 1) h.1))
        · rw [List.cons_append, handleChars_cons_other (rest ++ b) s c hR hL,
            handleChars_cons_other rest s c hR hL]
          exact ih s h

lemma handleSerialChunks_join (chunks : List String) (s : SeqState) (h : ValidState s) :
    handleSerialChunks s chunks = (handleSerialData s (String.join chunks)).1 := by
  induction chunks generalizing s with
  | nil => rfl
  | cons c cs ih =>
      have hjoin : String.join (c :: cs) = c ++ String.join cs := by
        apply String.ext
        simp [String.join_eq, String.data_append]
      have hdata : (c ++ String.join cs).toList = c.toList ++ (String.join cs).toList := by
        simp [String.toList, String.data_append]
      have hvalid : ValidState (handleSerialData s c).1 :=
        (handleChars_valid c.toList s h).2.1
      have hstep : handleSerialChunks s (c :: cs) =
          handleSerialChunks (handleSerialData s c).1 cs := rfl
      rw [hstep, ih _ hvalid]
      unfold handleSerialData
      rw [hjoin, hdata, handleChars_append c.toList (String.join cs).toList s h]

lemma handleChars_RRLR (s : SeqState) (h : ValidState s) :
    handleChars ['R', 'R', 'L', 'R'] s =
      ({ s with currentProjectIndex :=
          (s.currentProjectIndex + 2) % s.projects.length }, none) := by
  obtain ⟨ps, c⟩ := s
  obtain ⟨hlen, hv, hc⟩ := h
  have hL0 : 0 < ps.length := hlen
  have hv' : ∀ p ∈ ps, p.url ≠ "" := hv
  have hc' : c < ps.length := hc
  have e1 : handleChars ['R', 'R', 'L', 'R'] (⟨ps, c⟩ : SeqState) =
      handleChars ['R', 'L', 'R'] ⟨ps, (c + 1) % ps.length⟩ :=
    handleChars_cons_R _ ⟨ps, c⟩ ⟨hL0, hv', hc'⟩
  have e2 : handleChars ['R', 'L', 'R'] (⟨ps, (c + 1) % ps.length⟩ : SeqState) =
      handleChars ['L', 'R'] ⟨ps, ((c + 1) % ps.length + 1) % ps.length⟩ :=
    handleChars_cons_R _ ⟨ps, (c + 1) % ps.length⟩ ⟨hL0, hv', Nat.mod_lt _ hL0⟩
  have e3 : handleChars ['L', 'R']
        (⟨ps, ((c + 1) % ps.length + 1) % ps.length⟩ : SeqState) =
      handleChars ['R']
        ⟨ps, (((c + 1) % ps.length + 1) % ps.length + ps.length - 1) % ps.length⟩ :=
    handleChars_cons_L _ ⟨ps, ((c + 1) % ps.length + 1) % ps.length⟩
      ⟨hL0, hv', Nat.mod_lt _ hL0⟩
  have e4 : handleChars ['R']
        (⟨ps, (((c + 1) % ps.length + 1) % ps.length + ps.length - 1) % ps.length⟩ :
          SeqState) =
      handleChars []
        ⟨ps, ((((c + 1) % ps.length + 1) % ps.length + ps.length - 1) % ps.length + 1) %
          ps.length⟩ :=
    handleChars_cons_R _
      ⟨ps, (((c + 1) % ps.length + 1) % ps.length + ps.length - 1) % ps.length⟩
      ⟨hL0, hv', Nat.mod_lt _ hL0⟩
  have harith :
      ((((c + 1) % ps.length + 1) % ps.length + ps.length - 1) % ps.length + 1) %
        ps.length = (c + 2) % ps.length := by
    have ha : ((c + 1) % ps.length + 1) % ps.length = (c + 1 + 1) % ps.length :=
      Nat.mod_add_mod (c + 1) ps.length 1
    calc ((((c + 1) % ps.length + 1) % ps.length + ps.length - 1) % ps.length + 1) %
          ps.length
        = (((c + 1 + 1) % ps.length + ps.length - 1) % ps.length + 1) % ps.length := by
          rw [ha]
      _ = (c + 1 + 1) % ps.length := pred_mod_succ hL0 (Nat.mod_lt _ hL0)
  show handleChars ['R', 'R', 'L', 'R'] (⟨ps, c⟩ : SeqState) =
    ((⟨ps, (c + 2) % ps.length⟩ : SeqState), (none : Option NavError))
  rw [e1, e2, e3, e4, harith]
  rfl

/-- C5: serial decoding is a per-character homomorphism over chunking
on a valid playlist: processing any chunk list equals processing the
concatenated byte string, and the sequence `"RRLR"` delivered as four
single-byte events performs next, next, previous, next — a net cursor
displacement of `+2 (mod length)` with no error escaping. -/
theorem handleSerialData_spec (s : SeqState) (h : ValidState s) :
    (∀ chunks : List String,
        handleSerialChunks s chunks = (handleSerialData s (String.join chunks)).1)
    ∧ (handleSerialData s "RRLR").2 = none
    ∧ handleSerialChunks s ["R", "R", "L", "R"] =
        { s with currentProjectIndex :=
            (s.currentProjectIndex + 2) % s.projects.length } := by
  have htl : "RRLR".toList = ['R', 'R', 'L', 'R'] := by decide
  have hone : handleSerialData s "RRLR" =
      ({ s with currentProjectIndex :=
          (s.currentProjectIndex + 2) % s.projects.length }, none) := by
    unfold handleSerialData
    rw [htl, handleChars_RRLR s h]
  refine ⟨fun chunks => handleSerialChunks_join chunks s h, ?_, ?_⟩
  · rw [hone]
  · have hj : String.join ["R", "R", "L", "R"] = "RRLR" := by decide
    rw [handleSerialChunks_join ["R", "R", "L", "R"] s h, hj, hone]

/-- Witness for C5 on a three-project playlist: `"RRLR"` in four
single-byte events moves the cursor from 0 to 2. -/
theorem handleSerialData_spec_witness :
    handleSerialChunks
        ⟨[⟨none, none, "a"⟩, ⟨none, none, "b"⟩, ⟨none, none, "c"⟩], 0⟩
        ["R", "R", "L", "R"] =
      ⟨[⟨none, none, "a"⟩, ⟨none, none, "b"⟩, ⟨none, none, "c"⟩], 2⟩ :=
  (handleSerialData_spec
    ⟨[⟨none, none, "a"⟩, ⟨none, none, "b"⟩, ⟨none, none, "c"⟩], 0⟩
    ⟨by decide, by decide, by decide⟩).2.2

/-- C6: navigation failures are atomic and non-fatal.  With an empty
playlist every navigation call fails with `EmptyPlaylistError`;
`goTo(index)` fails with `InvalidProjectError` when the target entry
lacks a non-empty `url`; and whenever a navigation operation errors,
the module state (cursor and playlist) is unchanged. -/
theorem navigation_error_spec (s : SeqState) :
    (s.projects.length = 0 →
      (∀ i, loadProject s i = .error .emptyPlaylist)
      ∧ showNextProject s = .error .emptyPlaylist
      ∧ showPreviousProject s = .error .emptyPlaylist)
    ∧ (∀ i p, s.projects[i]? = some p → p.url = "" →
        loadProject s i = .error (.invalidProject i))
    ∧ (∀ op e, navResult s op = .error e → applyNav s op = s) := by
  refine ⟨?_, ?_, ?_⟩
  · intro h0
    have hl : ∀ i, loadProject s i = .error .emptyPlaylist := by
      intro i
      unfold loadProject
      rw [if_pos h0]
    exact ⟨hl, hl _, hl _⟩
  · intro i p hget hurl
    have h0 : ¬s.projects.length = 0 := by
      intro hlen
      have hnil : s.projects = [] := List.length_eq_zero.mp hlen
      rw [hnil] at hget
      exact absurd hget (by simp)
    unfold loadProject
    rw [if_neg h0, hget]
    exact if_pos hurl
  · intro op e h
    unfold applyNav
    rw [h]

/-- Witness for C6: empty playlist and missing-url failures at concrete
states, with the state left unchanged. -/
theorem navigation_error_spec_witness :
    loadProject ⟨[], 0⟩ 0 = .error .emptyPlaylist ∧
      loadProject ⟨[⟨none, none, ""⟩], 0⟩ 0 = .error (.invalidProject 0) ∧
      applyNav ⟨[⟨none, none, ""⟩], 0⟩ (.goTo 0) = ⟨[⟨none, none, ""⟩], 0⟩ := by
  refine ⟨((navigation_error_spec ⟨[], 0⟩).1 rfl).1 0, ?_, ?_⟩
  · exact (navigation_error_spec ⟨[⟨none, none, ""⟩], 0⟩).2.1 0 ⟨none, none, ""⟩ rfl rfl
  · exact (navigation_error_spec ⟨[⟨none, none, ""⟩], 0⟩).2.2 (.goTo 0) (.invalidProject 0)
      ((navigation_error_spec ⟨[⟨none, none, ""⟩], 0⟩).2.1 0 ⟨none, none, ""⟩ rfl rfl)

/-- C7: on a valid playlist, `next()` applied `length` times returns the
state (in particular the cursor) to its starting value, and
`previous()` is the exact inverse of `next()` in both orders. -/
theorem next_cycle_and_inverse (s : SeqState) (h : ValidState s) :
    nextN s.projects.length s = .ok s
    ∧ (showNextProject s).bind showPreviousProject = .ok s
    ∧ (showPreviousProject s).bind showNextProject = .ok s := by
  obtain ⟨h0, hv, hc⟩ := h
  refine ⟨?_, ?_, ?_⟩
  · rw [nextN_ok _ s ⟨h0, hv, hc⟩]
    have he : (s.currentProjectIndex + s.projects.length) % s.projects.length =
        s.currentProjectIndex := by
      rw [Nat.add_mod_right, Nat.mod_eq_of_lt hc]
    rw [he]
  · rw [showNextProject_ok s ⟨h0, hv, hc⟩]
    have h1 := validState_update s ⟨h0, hv, hc⟩ (Nat.mod_lt (s.currentProjectIndex + 1) h0)
    show showPreviousProject _ = .ok s
    rw [showPreviousProject_ok _ h1]
    have he : ((s.currentProjectIndex + 1) % s.projects.length + s.projects.length - 1) %
        s.projects.length = s.currentProjectIndex := succ_mod_pred h0 hc
    exact congrArg Except.ok (congrArg (SeqState.mk s.projects) he)
  · rw [showPreviousProject_ok s ⟨h0, hv, hc⟩]
    have h1 := validState_update s ⟨h0, hv, hc⟩
      (Nat.mod_lt (s.currentProjectIndex + s.projects.length - 1) h0)
    show showNextProject _ = .ok s
    rw [showNextProject_ok _ h1]
    have he : ((s.currentProjectIndex + s.projects.length - 1) % s.projects.length + 1) %
        s.projects.length = s.currentProjectIndex := pred_mod_succ h0 hc
    exact congrArg Except.ok (congrArg (SeqState.mk s.projects) he)

/-- Witness for C7 on a three-project playlist starting at cursor 1. -/
theorem next_cycle_and_inverse_witness :
    nextN 3 ⟨[⟨none, none, "a"⟩, ⟨none, none, "b"⟩, ⟨none, none, "c"⟩], 1⟩ =
        .ok ⟨[⟨none, none, "a"⟩, ⟨none, none, "b"⟩, ⟨none, none, "c"⟩], 1⟩ ∧
      (showNextProject ⟨[⟨none, none, "a"⟩, ⟨none, none, "b"⟩, ⟨none, none, "c"⟩], 1⟩).bind
          showPreviousProject =
        .ok ⟨[⟨none, none, "a"⟩, ⟨none, none, "b"⟩, ⟨none, none, "c"⟩], 1⟩ := by
  have h := next_cycle_and_inverse
    ⟨[⟨none, none, "a"⟩, ⟨none, none, "b"⟩, ⟨none, none, "c"⟩], 1⟩
    ⟨by decide, by decide, by decide⟩
  exact ⟨h.1, h.2.1⟩

/-- C8: on a non-empty playlist with an in-range cursor, every
navigation operation preserves the playlist and leaves the cursor in
`[0, length)` (unchanged on error); `next`/`previous` request exactly
the `(cursor ± 1) mod length` targets. -/
theorem cursor_invariant (s : SeqState) (h0 : 0 < s.projects.length)
    (hc : s.currentProjectIndex < s.projects.length) (op : NavOp) :
    ((applyNav s op).projects = s.projects ∧
      (applyNav s op).currentProjectIndex < s.projects.length) ∧
    showNextProject s = loadProject s ((s.currentProjectIndex + 1) % s.projects.length) ∧
    showPreviousProject s =
      loadProject s
        ((s.currentProjectIndex + s.projects.length - 1) % s.projects.length) := by
  refine ⟨?_, rfl, rfl⟩
  unfold applyNav
  cases h : navResult s op with
  | error e => exact ⟨rfl, hc⟩
  | ok s' =>
      rcases navResult_ok_shape s op s' h with rfl | ⟨i, hload⟩
      · exact ⟨rfl, hc⟩
      · obtain ⟨hp, hci, hi⟩ := loadProject_ok_inv s i s' hload
        refine ⟨hp, ?_⟩
        show s'.currentProjectIndex < s.projects.length
        omega

/-- Witness for C8: the cursor invariant at a concrete state and an
out-of-range `goTo`, which errors and leaves the state unchanged. -/
theorem cursor_invariant_witness :
    (applyNav ⟨[⟨none, none, "a"⟩, ⟨none, none, "b"⟩], 1⟩ (.goTo 7)).projects =
        [⟨none, none, "a"⟩, ⟨none, none, "b"⟩] ∧
      (applyNav ⟨[⟨none, none, "a"⟩, ⟨none, none, "b"⟩], 1⟩
          (.goTo 7)).currentProjectIndex < 2 :=
  (cursor_invariant ⟨[⟨none, none, "a"⟩, ⟨none, none, "b"⟩], 1⟩
    (by decide) (by decide) (.goTo 7)).1


/-- C4: the quit guard grants a quit attempt immediately when no
password is configured (empty/whitespace after trim), when the one-shot
`passwordValidated` flag is already set, or within the 10-second grace
period; otherwise it suppresses termination and challenges — a correct
entry sets the one-shot flag and calls `app.quit()` again, while a wrong
entry or a cancelled dialog leaves the process running with nothing
surfaced. -/
theorem beforeQuit_spec (ctx : Quit.QuitCtx) (d : Option String) :
    ((jsTrim ctx.password = "" ∨ ctx.passwordValidated = true ∨
        ctx.elapsedMs < Quit.PASSWORD_GRACE_PERIOD_MS) →
      (Quit.beforeQuit ctx d).prevented = false)
    ∧ (jsTrim ctx.password ≠ "" → ctx.passwordValidated = false →
        ¬ctx.elapsedMs < Quit.PASSWORD_GRACE_PERIOD_MS →
        ((Quit.beforeQuit ctx d).prevented = true
          ∧ (d = some (jsTrim ctx.password) →
              Quit.beforeQuit ctx d =
                { prevented := true, passwordValidated := true,
                  quitRequestedAgain := true })
          ∧ (∀ w, d = some w → w ≠ jsTrim ctx.password →
              Quit.beforeQuit ctx d =
                { prevented := true, passwordValidated := false,
                  quitRequestedAgain := false })
          ∧ (d = none →
              Quit.beforeQuit ctx d =
                { prevented := true, passwordValidated := false,
                  quitRequestedAgain := false }))) := by
  by_cases hcond : jsTrim ctx.password ≠ "" ∧ ctx.passwordValidated = false ∧
      Quit.isWithinPasswordGracePeriod ctx.elapsedMs = false
  · obtain ⟨h1, h2, h3⟩ := hcond
    have h3' : ¬ctx.elapsedMs < Quit.PASSWORD_GRACE_PERIOD_MS := by
      unfold Quit.isWithinPasswordGracePeriod at h3
      simpa using h3
    have hstep : Quit.beforeQuit ctx d =
        (match d with
          | some entered =>
              if entered = jsTrim ctx.password then
                { prevented := true, passwordValidated := true,
                  quitRequestedAgain := true }
              else
                { prevented := true, passwordValidated := ctx.passwordValidated,
                  quitRequestedAgain := false }
          | none =>
              { prevented := true, passwordValidated := ctx.passwordValidated,
                quitRequestedAgain := false }) := by
      simp only [Quit.beforeQuit]
      rw [if_pos ⟨h1, h2, h3⟩]
    constructor
    · intro hgrant
      rcases hgrant with hg | hg | hg
      · exact absurd hg h1
      · rw [h2] at hg
        cases hg
      · exact absurd hg h3'
    · intro _ _ _
      cases d with
      | none =>
          have hstepN : Quit.beforeQuit ctx none =
              { prevented := true, passwordValidated := ctx.passwordValidated,
                quitRequestedAgain := false } := hstep
          rw [hstepN, h2]
          refine ⟨rfl, ?_, ?_, fun _ => rfl⟩
          · intro hcontra
            exact absurd hcontra (by simp)
          · intro w hcontra _
            exact absurd hcontra (by simp)
      | some w =>
          have hstepS : Quit.beforeQuit ctx (some w) =
              (if w = jsTrim ctx.password then
                { prevented := true, passwordValidated := true,
                  quitRequestedAgain := true }
              else
                { prevented := true, passwordValidated := ctx.passwordValidated,
                  quitRequestedAgain := false }) := hstep
          rw [hstepS]
          by_cases hw : w = jsTrim ctx.password
          · rw [if_pos hw]
            refine ⟨rfl, fun _ => rfl, ?_, ?_⟩
            · intro w' hw' hne
              have hww : w = w' := by
                injection hw'
              rw [← hww] at hne
              exact absurd hw hne
            · intro hcontra
              exact absurd hcontra (by simp)
          · rw [if_neg hw, h2]
            refine ⟨rfl, ?_, fun w' _ _ => rfl, ?_⟩
            · intro heq
              have hww : w = jsTrim ctx.password := by
                injection heq
              exact absurd hww hw
            · intro hcontra
              exact absurd hcontra (by simp)
  · refine ⟨?_, ?_⟩
    · intro _
      simp only [Quit.beforeQuit]
      rw [if_neg hcond]
    · intro h1 h2 h3
      have h3' : Quit.isWithinPasswordGracePeriod ctx.elapsedMs = false := by
        unfold Quit.isWithinPasswordGracePeriod
        exact decide_eq_false h3
      exact absurd ⟨h1, h2, h3'⟩ hcond

/-- Witness for C4: with password `"abc123"`, a correct entry at
`t = 20 s` suppresses the first attempt, validates, and re-requests
quit; at `t = 5 s` (grace period) the attempt is granted outright. -/
theorem beforeQuit_spec_witness :
    Quit.beforeQuit ⟨"abc123", false, 20000⟩ (some "abc123") =
        { prevented := true, passwordValidated := true, quitRequestedAgain := true } ∧
      (Quit.beforeQuit ⟨"abc123", false, 5000⟩ none).prevented = false := by
  constructor
  · exact ((beforeQuit_spec ⟨"abc123", false, 20000⟩ (some "abc123")).2
      (by decide) rfl (by decide)).2.1 (by decide)
  · exact (beforeQuit_spec ⟨"abc123", false, 5000⟩ none).1
      (Or.inr (Or.inr (by decide)))

/-- C1 (code bug): issuing `next()` twice while the title card is still
loading leaves two live timers — the stale first-transition timer is
never cancelled (`showProjectAfterTitleCard` only clears
`titleCardTimeoutId` synchronously, before either async continuation
has scheduled anything, and the timer callback never checks that it is
still the live transition) — so the first target's content is loaded
and then the second's.  The claim that only the most recent request's
timer can fire, and that the first target's content load never happens,
is therefore violated by the code on this interleaving. -/
theorem titleCard_timer_stacking :
    (Card.run Card.initialCardState
        [.nav 1, .nav 2, .cardLoaded]).scheduledTimers = [(0, 1), (1, 2)] ∧
      (Card.run Card.initialCardState
          [.nav 1, .nav 2, .cardLoaded, .timerFire, .timerFire]).contentLoads =
        [1, 2] := by
  constructor <;> rfl

end BrowserSelector
